import Mathlib

/-!
Shallow embedding of the head-tracked VR media viewer core: orientation
fusion and recentering, touch-drag rotation, the gaze/dwell interaction
loop, screen-click classification, game-note scoring, the rhythm-game
note spawner, and the per-eye panoramic texture windows.  Continuous
quantities (degrees, milliseconds, pixels, texture coordinates) are
modelled as rationals; DOM hit-testing is abstracted as the triple of
nearest ancestors carrying the data-action, data-game-note and data-word
attributes that the source inspects with el.closest.
-/

namespace VRApp

/-- Raw device orientation sample (alpha, beta, gamma), in degrees. -/
structure Orientation where
  alpha : ℚ
  beta : ℚ
  gamma : ℚ
  deriving DecidableEq, Repr

/-- Two-axis rotation, x is pitch and y is yaw (the shape of the
headRotation and touchRotation state in App). -/
structure Rot where
  x : ℚ
  y : ℚ
  deriving DecidableEq, Repr

/-- Second adjustment of the yaw wrap (handleOrientation line 715,
`if (yaw < -180) yaw += 360`). -/
def wrapYawLow (y : ℚ) : ℚ := if y < -180 then y + 360 else y

/-- Yaw wrap from handleOrientation lines 713-715: the two sequential
conditional adjustments applied to rawAlpha minus baseAlpha. -/
def wrapYaw (yaw : ℚ) : ℚ := wrapYawLow (if yaw > 180 then yaw - 360 else yaw)

/-- Pitch clamp from handleOrientation line 720,
`Math.max(-80, Math.min(80, pitch))`. -/
def clampPitch (p : ℚ) : ℚ := max (-80) (min 80 p)

/-- Sensor fusion of one raw sample against the calibration base
(handleOrientation lines 709-722). -/
def fuseOrientation (raw base : Orientation) (isLandscape : Bool) : Rot :=
  { x := clampPitch (if isLandscape then raw.gamma - base.gamma else raw.beta - base.beta)
    y := wrapYaw (raw.alpha - base.alpha) }

/-- Rhythm-game statistics (GameStats in types.ts). -/
structure GameStats where
  score : ℕ
  combo : ℕ
  maxCombo : ℕ
  deriving DecidableEq, Repr

/-- The scoring update performed on a fresh game-note hit, identical in
handleScreenClick lines 574-578 and checkGaze lines 631-635. -/
def scoreHit (g : GameStats) : GameStats :=
  { score := g.score + 100 + g.combo * 10
    combo := g.combo + 1
    maxCombo := max g.maxCombo (g.combo + 1) }

/-- ControlMode from types.ts. -/
inductive ControlMode
  | SENSOR
  | TOUCH
  deriving DecidableEq, Repr

/-- DragAxis from types.ts. -/
inductive DragAxis
  | FREE
  | HORIZONTAL
  deriving DecidableEq, Repr

/-- The DOM element under the probe point, abstracted as the values read
by the source through el.closest: the data-action of the nearest
action ancestor, the data-note-id of the nearest data-game-note
ancestor, and the (data-word, data-sentence) of the nearest data-word
ancestor, when each exists.  Absent or empty data-note-id and data-word
are modelled by the empty string being falsy, exactly as in the source
truthiness checks. -/
structure Element where
  actionAnc : Option String
  noteAnc : Option String
  wordAnc : Option (String × String)
  deriving DecidableEq, Repr

/-- Observable activation events emitted by the interaction handlers. -/
inductive Event
  | translate (word sentence : String)
  | scoreNote (noteId : String)
  | togglePlay
  deriving DecidableEq, Repr

/-- The interaction-relevant state of the App component. -/
structure AppState where
  controlMode : ControlMode
  dragAxis : DragAxis
  baseRotation : Option Orientation
  lastRawOrientation : Option Orientation
  touchRotation : Rot
  isCalibrationMode : Bool
  isStereo : Bool
  isGameMode : Bool
  hoveredWord : Option String
  lastHoverTime : ℚ
  dwellProgress : ℚ
  isTranslating : Bool
  definition : Option String
  hitObjects : List String
  gameStats : GameStats
  deriving DecidableEq, Repr

/-- The initial App state (the useState initialisers and the resets in
handleStartPlay). -/
def st0 : AppState :=
  { controlMode := ControlMode.SENSOR
    dragAxis := DragAxis.FREE
    baseRotation := none
    lastRawOrientation := none
    touchRotation := ⟨0, 0⟩
    isCalibrationMode := false
    isStereo := false
    isGameMode := false
    hoveredWord := none
    lastHoverTime := 0
    dwellProgress := 0
    isTranslating := false
    definition := none
    hitObjects := []
    gameStats := ⟨0, 0, 0⟩ }

/-- confirmRecenter (App lines 360-367): in sensor mode, replace the
calibration base by the most recent raw sample when one exists; in touch
mode, zero the touch accumulator; always leave calibration mode. -/
def confirmRecenter (s : AppState) : AppState :=
  let s1 :=
    match s.controlMode, s.lastRawOrientation with
    | ControlMode.SENSOR, some r => { s with baseRotation := some r }
    | ControlMode.SENSOR, none => s
    | ControlMode.TOUCH, _ => { s with touchRotation := ⟨0, 0⟩ }
  { s1 with isCalibrationMode := false }

/-- The currentRotation accessor of the spec (section 4.1): in sensor
mode it is the fusion that handleOrientation (lines 704-723) computes on
the most recent raw sample against the current base, and the initial
(0,0) headRotation while either is absent; in touch mode it is the touch
accumulator. -/
def currentRotation (s : AppState) (isLandscape : Bool) : Rot :=
  match s.controlMode with
  | ControlMode.SENSOR =>
    match s.lastRawOrientation, s.baseRotation with
    | some raw, some base => fuseOrientation raw base isLandscape
    | _, _ => ⟨0, 0⟩
  | ControlMode.TOUCH => s.touchRotation

/-- One touch-mode drag delta applied to the accumulator (onPointerMove,
App lines 499-515): sensitivity 0.2, yaw always accumulates deltaX, and
pitch accumulates deltaY only when the drag axis is FREE, clamped there
to [-85, 85]. -/
def touchDragStep (r : Rot) (axis : DragAxis) (deltaX deltaY : ℚ) : Rot :=
  let sensitivity : ℚ := 1 / 5
  { x :=
      if axis = DragAxis.FREE then
        max (-85) (min 85 (r.x + deltaY * sensitivity))
      else r.x
    y := r.y + deltaX * sensitivity }

/-- A sequence of touch drags folded over the accumulator. -/
def touchDragRun (r : Rot) (axis : DragAxis) : List (ℚ × ℚ) → Rot
  | [] => r
  | d :: rest => touchDragRun (touchDragStep r axis d.1 d.2) axis rest

/-- closeDefinition (App lines 411-421): clears the definition and the
dwell state and stamps the hover timer with the current time. -/
def closeDefinition (s : AppState) (now : ℚ) : AppState :=
  { s with definition := none, dwellProgress := 0, hoveredWord := none, lastHoverTime := now }

/-- The game-note trigger shared verbatim by the click path
(handleScreenClick lines 570-581) and the gaze path (checkGaze lines
625-639): score only a truthy note id not yet in the consumed set, and
record it as consumed. -/
def noteTrigger (s : AppState) (noteId : String) : AppState × List Event :=
  if noteId ≠ "" ∧ noteId ∉ s.hitObjects then
    ({ s with hitObjects := noteId :: s.hitObjects, gameStats := scoreHit s.gameStats },
     [Event.scoreNote noteId])
  else (s, [])

/-- handleScreenClick (App lines 532-600), with the pure chrome
(toggleControls) omitted: calibration confirm preempts everything, then
the element is classified action, then game note, then word, each branch
returning; a miss in stereo mode toggles playback. -/
def handleScreenClick (s : AppState) (el : Option Element) (now : ℚ) : AppState × List Event :=
  if s.isCalibrationMode then (confirmRecenter s, [])
  else
    match el with
    | none => (s, if s.isStereo then [Event.togglePlay] else [])
    | some e =>
      match e.actionAnc with
      | some action =>
        if action = "recenter" then ({ s with isCalibrationMode := true }, [])
        else if action = "toggle-play" then (s, [Event.togglePlay])
        else (s, [])
      | none =>
        match e.noteAnc with
        | some noteId => noteTrigger s noteId
        | none =>
          match e.wordAnc with
          | some (word, sentence) =>
            if word = "close-btn" then (closeDefinition s now, [])
            else if s.isTranslating = false ∧ s.definition = none ∧ s.isGameMode = false then
              ({ s with isTranslating := true }, [Event.translate word sentence])
            else (s, [])
          | none => (s, if s.isStereo then [Event.togglePlay] else [])

/-- The dwell firing condition of checkGaze line 661: progress has
reached 1, no translation is pending, and no definition for this very
word is displayed. -/
abbrev dwellFireGuard (s : AppState) (word : String) (now : ℚ) : Prop :=
  min 1 ((now - s.lastHoverTime) / 1200) ≥ 1 ∧ s.isTranslating = false ∧
    (s.definition = none ∨ s.definition ≠ some word)

/-- The game-note check of checkGaze lines 624-639, active only in
rhythm-game mode. -/
def gazeNotePhase (s : AppState) (e : Element) : AppState × List Event :=
  if s.isGameMode then
    match e.noteAnc with
    | some noteId => noteTrigger s noteId
    | none => (s, [])
  else (s, [])

/-- The word check of checkGaze lines 641-677: enter hover on a new
word, advance dwell progress on a stable word with a live timer, fire
the translation once when the guard holds (forcing progress and the
timer to zero), and reset the hover state when the element carries no
word. -/
def gazeWordPhase (s : AppState) (e : Element) (now : ℚ) : AppState × List Event :=
  match e.wordAnc with
  | some (word, sentence) =>
    if word ≠ "" then
      if s.hoveredWord ≠ some word then
        ({ s with hoveredWord := some word, lastHoverTime := now, dwellProgress := 0 }, [])
      else if s.lastHoverTime > 0 then
        if dwellFireGuard s word now then
          ({ s with isTranslating := true, lastHoverTime := 0, dwellProgress := 0 },
           [Event.translate word sentence])
        else ({ s with dwellProgress := min 1 ((now - s.lastHoverTime) / 1200) }, [])
      else (s, [])
    else (s, [])
  | none =>
    if s.hoveredWord.isSome then
      ({ s with hoveredWord := none, dwellProgress := 0, lastHoverTime := 0 }, [])
    else (s, [])

/-- One gaze tick (checkGaze, App lines 606-678): a null probe resets
the dwell state; otherwise the note phase runs and then, on the same
element, the word phase. -/
def checkGaze (s : AppState) (el : Option Element) (now : ℚ) : AppState × List Event :=
  match el with
  | none => ({ s with hoveredWord := none, dwellProgress := 0, lastHoverTime := 0 }, [])
  | some e =>
    let np := gazeNotePhase s e
    let wp := gazeWordPhase np.1 e now
    (wp.1, np.2 ++ wp.2)

/-- A session input: either a qualifying screen click or a gaze tick. -/
inductive Input
  | click (el : Option Element) (now : ℚ)
  | gaze (el : Option Element) (now : ℚ)
  deriving DecidableEq, Repr

/-- Dispatch of one session input. -/
def stepInput (s : AppState) : Input → AppState × List Event
  | Input.click el now => handleScreenClick s el now
  | Input.gaze el now => checkGaze s el now

/-- A whole session: fold the inputs, concatenating emitted events. -/
def runInputs (s : AppState) : List Input → AppState × List Event
  | [] => (s, [])
  | i :: rest =>
    let r := stepInput s i
    let rr := runInputs r.1 rest
    (rr.1, r.2 ++ rr.2)

/-- Repeated gaze ticks over one fixed probe target. -/
def gazeRun (s : AppState) (el : Option Element) : List ℚ → AppState × List Event
  | [] => (s, [])
  | t :: ts =>
    let r := checkGaze s el t
    let rr := gazeRun r.1 el ts
    (rr.1, r.2 ++ rr.2)

/-- Number of translation activations in an event list. -/
def countTranslates (evs : List Event) : ℕ :=
  evs.countP fun ev => match ev with | Event.translate _ _ => true | _ => false

/-- Number of note-scoring activations in an event list. -/
def countScores (evs : List Event) : ℕ :=
  evs.countP fun ev => match ev with | Event.scoreNote _ => true | _ => false

/-- Number of scoring activations for one particular note id. -/
def countScoresOf (noteId : String) (evs : List Event) : ℕ :=
  evs.countP fun ev => ev == Event.scoreNote noteId

/-- Modelled from the spec: the clamp01 function the dwell-progress
sentence is stated with. -/
def specClamp01 (q : ℚ) : ℚ := max 0 (min 1 q)

/-- A probe element carrying only a word token. -/
def elW : Element := ⟨none, none, some ("w", "s")⟩

/-- A probe element carrying both a game note and a word token. -/
def elNW : Element := ⟨none, some "n1", some ("w", "s")⟩

/-- A state hovering the word of elW with a live dwell timer. -/
def hoverS : AppState := { st0 with hoveredWord := some "w", lastHoverTime := 100 }

/-- The hovering state with a translation lookup pending. -/
def dwellBlockedS : AppState := { hoverS with isTranslating := true }

/-- The hovering state with rhythm-game mode active. -/
def dwellGameS : AppState := { hoverS with isGameMode := true }

/-- Note movement speed per frame (RhythmGameRenderer SPEED). -/
def SPEED : ℚ := 25

/-- Spawn depth (RhythmGameRenderer SPAWN_Z). -/
def SPAWN_Z : ℚ := -1000

/-- Despawn depth (RhythmGameRenderer DESPAWN_Z). -/
def DESPAWN_Z : ℚ := 100

/-- Beat threshold (RhythmGameRenderer BEAT_THRESHOLD). -/
def BEAT_THRESHOLD : ℚ := 240

/-- Cooldown in frames between spawns (RhythmGameRenderer COOLDOWN_FRAMES). -/
def COOLDOWN_FRAMES : ℕ := 15

/-- A rhythm-game note (GameNote in types.ts, minus the wall-clock
spawnTime, which nothing under proof reads). -/
structure GameNote where
  id : String
  lane : ℤ
  z : ℚ
  isHit : Bool
  deriving DecidableEq, Repr

/-- The spawner state held in refs by RhythmGameRenderer. -/
structure SpawnerState where
  frameCount : ℕ
  lastBeatFrame : ℕ
  notes : List GameNote
  deriving DecidableEq, Repr

/-- Mean of the five lowest frequency bins (updateGame lines 84-88). -/
def bassAvg (freq : List ℕ) : ℚ := (((freq.take 5).sum : ℕ) : ℚ) / 5

/-- The note created on a detected beat (updateGame lines 92-99), with
the Math.random draw r passed in: lane is the floor of 4r. -/
def spawnNote (newId : String) (r : ℚ) : GameNote :=
  { id := newId, lane := ⌊r * 4⌋, z := SPAWN_Z, isHit := false }

/-- Per-frame note movement and hit marking (updateGame lines 108-115). -/
def moveNote (hits : List String) (n : GameNote) : GameNote :=
  { n with z := n.z + SPEED, isHit := n.isHit || decide (n.id ∈ hits) }

/-- One frame of the rhythm-game loop (updateGame, RhythmGameRenderer
lines 70-131): while playing, count the frame, spawn one note when the
analyser is live, the bass mean exceeds the threshold and the frame gap
since the last spawn exceeds the cooldown; then every live note,
including a freshly spawned one, advances by SPEED, is marked hit when
its id is in the shared consumed set, and is dropped once hit or past
the despawn depth. -/
def updateGame (s : SpawnerState) (isPlaying hasAnalyser : Bool)
    (freq : List ℕ) (r : ℚ) (newId : String) (hits : List String) : SpawnerState :=
  if isPlaying = false then s
  else
    let fc := s.frameCount + 1
    let spawned : Bool :=
      hasAnalyser && decide (bassAvg freq > BEAT_THRESHOLD)
        && decide (fc - s.lastBeatFrame > COOLDOWN_FRAMES)
    let notes1 := if spawned then s.notes ++ [spawnNote newId r] else s.notes
    let lastBeat1 := if spawned then fc else s.lastBeatFrame
    let moved := notes1.map (moveNote hits)
    let active := moved.filter fun n => decide (n.z < DESPAWN_Z) && !n.isHit
    { frameCount := fc, lastBeatFrame := lastBeat1, notes := active }

/-- VideoFormat from types.ts. -/
inductive VideoFormat
  | MONO_2D
  | STEREO_SBS
  | STEREO_TB
  | VR180_SBS
  | VR180_TB
  | VR180_MONO
  | VR360_SBS
  | VR360_TB
  | VR360_MONO
  deriving DecidableEq, Repr

/-- The eye a view renders for. -/
inductive Eye
  | left
  | right
  | single
  deriving DecidableEq, Repr

/-- Mirrors format.includes(..SBS..) over the enum string values. -/
def hasSBS : VideoFormat → Bool
  | VideoFormat.STEREO_SBS => true
  | VideoFormat.VR180_SBS => true
  | VideoFormat.VR360_SBS => true
  | _ => false

/-- Mirrors format.includes(..TB..) over the enum string values. -/
def hasTB : VideoFormat → Bool
  | VideoFormat.STEREO_TB => true
  | VideoFormat.VR180_TB => true
  | VideoFormat.VR360_TB => true
  | _ => false

/-- The repeat/offset window applied to the panoramic video texture:
U coordinates sampled are [uOffset, uOffset + uScale] and V coordinates
[vOffset, vOffset + vScale]. -/
structure UVWindow where
  uScale : ℚ
  uOffset : ℚ
  vScale : ℚ
  vOffset : ℚ
  deriving DecidableEq, Repr

/-- The per-eye texture window computed by VRVideoRenderer lines
324-348: scales and offsets start at the full texture and are narrowed
for stereo-split formats, the single eye reusing the left-eye values. -/
def textureWindow (format : VideoFormat) (eye : Eye) : UVWindow :=
  let isSBS := hasSBS format
  let isTB := hasTB format
  let w0 : UVWindow := ⟨1, 0, 1, 0⟩
  if isSBS || isTB then
    match eye with
    | Eye.left =>
      let w1 := if isSBS then { w0 with uScale := 1 / 2, uOffset := 0 } else w0
      if isTB then { w1 with vScale := 1 / 2, vOffset := 1 / 2 } else w1
    | Eye.right =>
      let w1 := if isSBS then { w0 with uScale := 1 / 2, uOffset := 1 / 2 } else w0
      if isTB then { w1 with vScale := 1 / 2, vOffset := 0 } else w1
    | Eye.single =>
      let w1 := if isSBS then { w0 with uScale := 1 / 2, uOffset := 0 } else w0
      if isTB then { w1 with vScale := 1 / 2, vOffset := 1 / 2 } else w1
  else w0

/-- The sampled U interval of a window. -/
def uWindow (w : UVWindow) : ℚ × ℚ := (w.uOffset, w.uOffset + w.uScale)

/-- The sampled V interval of a window. -/
def vWindow (w : UVWindow) : ℚ × ℚ := (w.vOffset, w.vOffset + w.vScale)

/-! ## Helper lemmas -/

theorem wrapYaw_bounds (d : ℚ) (h1 : -360 < d) (h2 : d < 360) :
    -180 ≤ wrapYaw d ∧ wrapYaw d ≤ 180 := by
  unfold wrapYaw wrapYawLow
  split_ifs <;> constructor <;> linarith

theorem clampPitch_bounds (p : ℚ) : -80 ≤ clampPitch p ∧ clampPitch p ≤ 80 := by
  refine ⟨le_max_left _ _, max_le (by norm_num) (min_le_left _ _)⟩

theorem gazeWordPhase_gameStats (s : AppState) (e : Element) (now : ℚ) :
    (gazeWordPhase s e now).1.gameStats = s.gameStats := by
  unfold gazeWordPhase
  rcases h : e.wordAnc with _ | ⟨w, snt⟩ <;> simp [h] <;> split_ifs <;> rfl

theorem gazeWordPhase_hitObjects (s : AppState) (e : Element) (now : ℚ) :
    (gazeWordPhase s e now).1.hitObjects = s.hitObjects := by
  unfold gazeWordPhase
  rcases h : e.wordAnc with _ | ⟨w, snt⟩ <;> simp [h] <;> split_ifs <;> rfl

theorem touchDragRun_x_horizontal (ds : List (ℚ × ℚ)) :
    ∀ r : Rot, (touchDragRun r DragAxis.HORIZONTAL ds).x = r.x := by
  induction ds with
  | nil => intro r; rfl
  | cons d rest ih =>
    intro r
    rw [touchDragRun, ih]
    simp +decide [touchDragStep]

theorem touchDragRun_x_bounds (ds : List (ℚ × ℚ)) (axis : DragAxis) :
    ∀ r : Rot, -85 ≤ r.x → r.x ≤ 85 →
      -85 ≤ (touchDragRun r axis ds).x ∧ (touchDragRun r axis ds).x ≤ 85 := by
  induction ds with
  | nil => intro r hlo hhi; exact ⟨hlo, hhi⟩
  | cons d rest ih =>
    intro r hlo hhi
    rw [touchDragRun]
    refine ih _ ?_ ?_ <;> cases axis <;>
      simp +decide [touchDragStep] <;>
      first
        | exact le_max_left _ _
        | exact max_le (by norm_num) (min_le_left _ _)
        | exact hlo
        | exact hhi

/-! ## C1: recenter restores the zero rotation -/

/-- C1: in both control modes, the fused rotation read immediately after
confirmRecenter is (pitch 0, yaw 0): in sensor mode the base is replaced
by the most recent raw sample so the derived yaw and pitch vanish, and
in touch mode the accumulator is reset. -/
theorem recenter_rotation_zero (s : AppState) (isLandscape : Bool) :
    currentRotation (confirmRecenter s) isLandscape = ⟨0, 0⟩ := by
  cases hc : s.controlMode <;> cases hr : s.lastRawOrientation <;>
    cases isLandscape <;>
      simp [confirmRecenter, currentRotation, hc, hr, fuseOrientation,
        wrapYaw, wrapYawLow, clampPitch] <;>
      norm_num

/-! ## C2: range of the fused rotation -/

/-- C2 counterexample: for the legal raw sample alpha = 0 against the
legal base alpha = 180, the wrapped yaw is exactly -180, which the claim
excludes from its half-open interval (-180, 180]. -/
theorem yaw_wrap_hits_neg180 :
    (fuseOrientation ⟨0, 0, 0⟩ ⟨180, 0, 0⟩ true).y = -180 ∧
    ¬ (-180 < (fuseOrientation ⟨0, 0, 0⟩ ⟨180, 0, 0⟩ true).y) ∧
    (0 : ℚ) ≤ 0 ∧ (0 : ℚ) < 360 ∧ (0 : ℚ) ≤ 180 ∧ (180 : ℚ) < 360 := by
  norm_num [fuseOrientation, wrapYaw, wrapYawLow, clampPitch]

/-- C2 (amended): for raw and base alpha in the sensor range [0, 360),
the fused yaw lies in the closed interval [-180, 180] (both endpoints
are reachable), and the fused pitch always lies in [-80, 80]. -/
theorem fused_rotation_range (raw base : Orientation) (isLandscape : Bool)
    (h1 : 0 ≤ raw.alpha) (h2 : raw.alpha < 360)
    (h3 : 0 ≤ base.alpha) (h4 : base.alpha < 360) :
    -180 ≤ (fuseOrientation raw base isLandscape).y ∧
    (fuseOrientation raw base isLandscape).y ≤ 180 ∧
    -80 ≤ (fuseOrientation raw base isLandscape).x ∧
    (fuseOrientation raw base isLandscape).x ≤ 80 := by
  have hy := wrapYaw_bounds (raw.alpha - base.alpha) (by linarith) (by linarith)
  have hx := clampPitch_bounds
    (if isLandscape then raw.gamma - base.gamma else raw.beta - base.beta)
  exact ⟨hy.1, hy.2, hx.1, hx.2⟩

/-- Witness for the amended C2 theorem at a concrete sample and base. -/
theorem fused_rotation_range_witness :
    -180 ≤ (fuseOrientation ⟨350, 5, 5⟩ ⟨10, 0, 0⟩ true).y ∧
    (fuseOrientation ⟨350, 5, 5⟩ ⟨10, 0, 0⟩ true).y ≤ 180 ∧
    -80 ≤ (fuseOrientation ⟨350, 5, 5⟩ ⟨10, 0, 0⟩ true).x ∧
    (fuseOrientation ⟨350, 5, 5⟩ ⟨10, 0, 0⟩ true).x ≤ 80 :=
  fused_rotation_range ⟨350, 5, 5⟩ ⟨10, 0, 0⟩ true
    (by norm_num) (by norm_num) (by norm_num) (by norm_num)

/-! ## C9: touch-mode drag accumulation -/

/-- C9 counterexample: one FREE-axis drag of 420 pixels from the zero
accumulator leaves the touch pitch at 84, outside the [-80, 80] range
the claim states (the source clamps to [-85, 85]). -/
theorem touch_pitch_exceeds_claimed_clamp :
    (touchDragStep ⟨0, 0⟩ DragAxis.FREE 0 420).x = 84 ∧
    ¬ (touchDragStep ⟨0, 0⟩ DragAxis.FREE 0 420).x ≤ 80 := by
  norm_num [touchDragStep, min_def, max_def]

/-- C9 (amended): drag deltas accumulate into yaw with the fixed
sensitivity 0.2; from the zero accumulator the pitch stays exactly 0
under the HORIZONTAL drag axis and stays within [-85, 85] (not [-80, 80])
under any axis; and recenter in touch mode zeroes the accumulator. -/
theorem touch_drag_rules :
    (∀ (r : Rot) (axis : DragAxis) (dx dy : ℚ),
      (touchDragStep r axis dx dy).y = r.y + dx * (1 / 5)) ∧
    (∀ ds : List (ℚ × ℚ), (touchDragRun ⟨0, 0⟩ DragAxis.HORIZONTAL ds).x = 0) ∧
    (∀ (axis : DragAxis) (ds : List (ℚ × ℚ)),
      -85 ≤ (touchDragRun ⟨0, 0⟩ axis ds).x ∧ (touchDragRun ⟨0, 0⟩ axis ds).x ≤ 85) ∧
    (∀ s : AppState,
      (confirmRecenter { s with controlMode := ControlMode.TOUCH }).touchRotation = ⟨0, 0⟩) := by
  refine ⟨fun r axis dx dy => rfl, fun ds => touchDragRun_x_horizontal ds ⟨0, 0⟩,
    fun axis ds => touchDragRun_x_bounds ds axis ⟨0, 0⟩ (by norm_num) (by norm_num),
    fun s => ?_⟩
  simp [confirmRecenter]

/-! ## C5: per-eye texture windows -/

/-- C5: for every stereo-split panoramic source the renderer samples
side-by-side left eye U in [0, 1/2] and right eye U in [1/2, 1],
top-bottom left eye V in [1/2, 1] and right eye V in [0, 1/2], with the
other axis always full; the single eye reuses the left-eye window for
every format; and mono panoramic sources sample the full texture for
every eye. -/
theorem stereo_texture_windows :
    uWindow (textureWindow VideoFormat.VR180_SBS Eye.left) = (0, 1 / 2) ∧
    uWindow (textureWindow VideoFormat.VR360_SBS Eye.left) = (0, 1 / 2) ∧
    uWindow (textureWindow VideoFormat.VR180_SBS Eye.right) = (1 / 2, 1) ∧
    uWindow (textureWindow VideoFormat.VR360_SBS Eye.right) = (1 / 2, 1) ∧
    vWindow (textureWindow VideoFormat.VR180_SBS Eye.left) = (0, 1) ∧
    vWindow (textureWindow VideoFormat.VR180_SBS Eye.right) = (0, 1) ∧
    vWindow (textureWindow VideoFormat.VR180_TB Eye.left) = (1 / 2, 1) ∧
    vWindow (textureWindow VideoFormat.VR360_TB Eye.left) = (1 / 2, 1) ∧
    vWindow (textureWindow VideoFormat.VR180_TB Eye.right) = (0, 1 / 2) ∧
    vWindow (textureWindow VideoFormat.VR360_TB Eye.right) = (0, 1 / 2) ∧
    uWindow (textureWindow VideoFormat.VR180_TB Eye.left) = (0, 1) ∧
    uWindow (textureWindow VideoFormat.VR180_TB Eye.right) = (0, 1) ∧
    (∀ f : VideoFormat, textureWindow f Eye.single = textureWindow f Eye.left) ∧
    (∀ e : Eye, textureWindow VideoFormat.VR180_MONO e = ⟨1, 0, 1, 0⟩ ∧
      textureWindow VideoFormat.VR360_MONO e = ⟨1, 0, 1, 0⟩ ∧
      uWindow (textureWindow VideoFormat.VR180_MONO e) = (0, 1) ∧
      vWindow (textureWindow VideoFormat.VR360_MONO e) = (0, 1)) := by
  refine ⟨?_, ?_, ?_, ?_, ?_, ?_, ?_, ?_, ?_, ?_, ?_, ?_, fun f => ?_, fun e => ?_⟩ <;>
    norm_num [textureWindow, hasSBS, hasTB, uWindow, vWindow]

/-! ## C10: the scoring update -/

/-- C10: both the click path and the gaze path score a fresh game note
with exactly the scoreHit update, which adds 100 plus 10 times the
previous combo to the score, increments the combo, and raises maxCombo
to the maximum of its old value and the new combo; consequently maxCombo
dominates combo after the update and the score strictly increases. -/
theorem note_scoring_arithmetic (s : AppState) (e : Element) (nid : String) (now : ℚ)
    (hcal : s.isCalibrationMode = false) (hact : e.actionAnc = none)
    (hnote : e.noteAnc = some nid) (hne : nid ≠ "") (hfresh : nid ∉ s.hitObjects)
    (hgame : s.isGameMode = true) :
    (handleScreenClick s (some e) now).1.gameStats = scoreHit s.gameStats ∧
    (checkGaze s (some e) now).1.gameStats = scoreHit s.gameStats ∧
    (scoreHit s.gameStats).score = s.gameStats.score + 100 + s.gameStats.combo * 10 ∧
    (scoreHit s.gameStats).combo = s.gameStats.combo + 1 ∧
    (scoreHit s.gameStats).maxCombo = max s.gameStats.maxCombo (s.gameStats.combo + 1) ∧
    (scoreHit s.gameStats).combo ≤ (scoreHit s.gameStats).maxCombo ∧
    s.gameStats.score < (scoreHit s.gameStats).score := by
  refine ⟨?_, ?_, rfl, rfl, rfl, ?_, ?_⟩
  · simp [handleScreenClick, hcal, hact, hnote, noteTrigger, hne, hfresh]
  · simp [checkGaze, gazeNotePhase, hgame, hnote, noteTrigger, hne, hfresh,
      gazeWordPhase_gameStats]
  · exact le_max_right _ _
  · simp only [scoreHit]
    omega

/-- Witness for the C10 theorem: the click path scores a fresh note from
the initial game-mode state. -/
theorem note_scoring_arithmetic_witness :
    (handleScreenClick { st0 with isGameMode := true }
        (some ⟨none, some "n1", none⟩) 0).1.gameStats
      = scoreHit ({ st0 with isGameMode := true } : AppState).gameStats :=
  (note_scoring_arithmetic { st0 with isGameMode := true } ⟨none, some "n1", none⟩
    "n1" 0 rfl rfl rfl (by decide) (by decide) rfl).1

/-! ## Gaze machinery lemmas -/

theorem countTranslates_append (a b : List Event) :
    countTranslates (a ++ b) = countTranslates a + countTranslates b := by
  simp [countTranslates, List.countP_append]

theorem gazeNotePhase_preserves (s : AppState) (e : Element) :
    (gazeNotePhase s e).1.hoveredWord = s.hoveredWord ∧
    (gazeNotePhase s e).1.lastHoverTime = s.lastHoverTime ∧
    (gazeNotePhase s e).1.dwellProgress = s.dwellProgress ∧
    (gazeNotePhase s e).1.isTranslating = s.isTranslating ∧
    (gazeNotePhase s e).1.definition = s.definition ∧
    countTranslates (gazeNotePhase s e).2 = 0 := by
  unfold gazeNotePhase noteTrigger
  split_ifs with hg
  · rcases h : e.noteAnc with _ | nid
    · simp [h, countTranslates]
    · simp only [h]
      split_ifs <;> simp [countTranslates]
  · simp [countTranslates]

theorem checkGaze_some (s : AppState) (e : Element) (now : ℚ) :
    checkGaze s (some e) now
      = ((gazeWordPhase (gazeNotePhase s e).1 e now).1,
         (gazeNotePhase s e).2 ++ (gazeWordPhase (gazeNotePhase s e).1 e now).2) := rfl

theorem gazeWordPhase_stable (s : AppState) (e : Element) (w snt : String) (now : ℚ)
    (hword : e.wordAnc = some (w, snt)) (hw : w ≠ "")
    (hh : s.hoveredWord = some w) (ht : 0 < s.lastHoverTime) :
    gazeWordPhase s e now =
      (if dwellFireGuard s w now then
        ({ s with isTranslating := true, lastHoverTime := 0, dwellProgress := 0 },
         [Event.translate w snt])
      else ({ s with dwellProgress := min 1 ((now - s.lastHoverTime) / 1200) }, [])) := by
  unfold gazeWordPhase
  simp [hword, hw, hh, ht]

theorem checkGaze_locked (s : AppState) (e : Element) (w snt : String) (now : ℚ)
    (hword : e.wordAnc = some (w, snt))
    (hh : s.hoveredWord = some w) (ht : s.lastHoverTime = 0) :
    countTranslates (checkGaze s (some e) now).2 = 0 ∧
    (checkGaze s (some e) now).1.hoveredWord = some w ∧
    (checkGaze s (some e) now).1.lastHoverTime = 0 := by
  obtain ⟨hn1, hn2, -, -, -, hn6⟩ := gazeNotePhase_preserves s e
  rw [checkGaze_some, countTranslates_append]
  have hwp : gazeWordPhase (gazeNotePhase s e).1 e now = ((gazeNotePhase s e).1, []) := by
    unfold gazeWordPhase
    by_cases hw : w = ""
    · simp [hword, hw]
    · simp [hword, hw, hn1, hh, hn2, ht]
  rw [hwp, hn6]
  exact ⟨rfl, hn1.trans hh, hn2.trans ht⟩

theorem gazeRun_locked (e : Element) (w snt : String)
    (hword : e.wordAnc = some (w, snt)) (ts : List ℚ) :
    ∀ s : AppState, s.hoveredWord = some w → s.lastHoverTime = 0 →
      countTranslates (gazeRun s (some e) ts).2 = 0 := by
  induction ts with
  | nil => intro s hh ht; simp [gazeRun, countTranslates]
  | cons t rest ih =>
    intro s hh ht
    obtain ⟨h0, h1, h2⟩ := checkGaze_locked s e w snt t hword hh ht
    rw [gazeRun]
    rw [countTranslates_append, h0, ih _ h1 h2]

theorem checkGaze_translate_cases (s : AppState) (e : Element) (w snt : String) (now : ℚ)
    (hword : e.wordAnc = some (w, snt)) :
    countTranslates (checkGaze s (some e) now).2 = 0 ∨
    (countTranslates (checkGaze s (some e) now).2 = 1 ∧
     (checkGaze s (some e) now).1.hoveredWord = some w ∧
     (checkGaze s (some e) now).1.lastHoverTime = 0) := by
  obtain ⟨hn1, hn2, -, -, -, hn6⟩ := gazeNotePhase_preserves s e
  rw [checkGaze_some, countTranslates_append, hn6]
  by_cases hw : w = ""
  · left
    have hwp : gazeWordPhase (gazeNotePhase s e).1 e now = ((gazeNotePhase s e).1, []) := by
      unfold gazeWordPhase
      simp [hword, hw]
    rw [hwp]
    rfl
  · by_cases hh : (gazeNotePhase s e).1.hoveredWord = some w
    · by_cases ht : 0 < (gazeNotePhase s e).1.lastHoverTime
      · rw [gazeWordPhase_stable _ e w snt now hword hw hh ht]
        by_cases hf : dwellFireGuard (gazeNotePhase s e).1 w now
        · right
          rw [if_pos hf]
          exact ⟨rfl, hh, rfl⟩
        · left
          rw [if_neg hf]
          rfl
      · left
        have hwp : gazeWordPhase (gazeNotePhase s e).1 e now = ((gazeNotePhase s e).1, []) := by
          unfold gazeWordPhase
          simp [hword, hw, hh, gt_iff_lt, ht]
        rw [hwp]
        rfl
    · left
      have hwp : gazeWordPhase (gazeNotePhase s e).1 e now
          = ({ (gazeNotePhase s e).1 with
                hoveredWord := some w, lastHoverTime := now, dwellProgress := 0 }, []) := by
        unfold gazeWordPhase
        simp [hword, hw, hh]
      rw [hwp]
      rfl

theorem checkGaze_no_word (s : AppState) (e : Element) (now : ℚ)
    (h : e.wordAnc = none) :
    countTranslates (checkGaze s (some e) now).2 = 0 := by
  obtain ⟨-, -, -, -, -, hn6⟩ := gazeNotePhase_preserves s e
  rw [checkGaze_some, countTranslates_append, hn6]
  unfold gazeWordPhase
  simp only [h]
  split_ifs <;> rfl

theorem gazeRun_translates_le_one (el : Option Element) (ts : List ℚ) :
    ∀ s : AppState, countTranslates (gazeRun s el ts).2 ≤ 1 := by
  rcases el with _ | e
  · induction ts with
    | nil => intro s; simp [gazeRun, countTranslates]
    | cons t rest ih =>
      intro s
      rw [gazeRun, countTranslates_append]
      have h0 : countTranslates (checkGaze s none t).2 = 0 := by
        simp [checkGaze, countTranslates]
      rw [h0]
      simpa using ih _
  · rcases hword : e.wordAnc with _ | ⟨w, snt⟩
    · induction ts with
      | nil => intro s; simp [gazeRun, countTranslates]
      | cons t rest ih =>
        intro s
        rw [gazeRun, countTranslates_append, checkGaze_no_word s e t hword]
        simpa using ih _
    · induction ts with
      | nil => intro s; simp [gazeRun, countTranslates]
      | cons t rest ih =>
        intro s
        rw [gazeRun, countTranslates_append]
        rcases checkGaze_translate_cases s e w snt t hword with h0 | ⟨h1, hh, ht⟩
        · rw [h0]
          simpa using ih _
        · rw [h1, gazeRun_locked e w snt hword rest _ hh ht]

theorem specClamp01_of_nonneg (q : ℚ) (h : 0 ≤ q) : specClamp01 q = min 1 q :=
  max_eq_right (le_min (by norm_num) h)

theorem specClamp01_mono {a b : ℚ} (h : a ≤ b) : specClamp01 a ≤ specClamp01 b :=
  max_le_max le_rfl (min_le_min le_rfl h)

theorem gazeNotePhase_no_note (s : AppState) (e : Element) (h : e.noteAnc = none) :
    gazeNotePhase s e = (s, []) := by
  unfold gazeNotePhase
  simp [h]

theorem dwell_tick_progress (s : AppState) (w snt : String) (now : ℚ) (hw : w ≠ "")
    (hh : s.hoveredWord = some w) (ht : 0 < s.lastHoverTime) (hle : s.lastHoverTime ≤ now)
    (hf : ¬ dwellFireGuard s w now) :
    (checkGaze s (some ⟨none, none, some (w, snt)⟩) now).1.dwellProgress
      = specClamp01 ((now - s.lastHoverTime) / 1200) := by
  rw [checkGaze_some, gazeNotePhase_no_note s _ rfl]
  dsimp only
  rw [gazeWordPhase_stable s _ w snt now rfl hw hh ht, if_neg hf]
  dsimp only
  rw [specClamp01_of_nonneg _ (div_nonneg (by linarith) (by norm_num))]

/-! ## C3: the dwell state machine -/

/-- C3 counterexample: with a translation lookup pending, a dwell
episode on the fixed word target reaches progress 1 on the tick at
1300ms and fires no activation then, and the probe then leaves the
target, ending the uninterrupted episode with zero activations fired,
against the claimed exactly one; the reached progress 1 is moreover not
forced back to 0 on the blocked tick. -/
theorem dwell_episode_reaches_one_without_firing :
    (checkGaze dwellBlockedS (some elW) 1300).1.dwellProgress = 1 ∧
    countTranslates (checkGaze dwellBlockedS (some elW) 1300).2 = 0 ∧
    countTranslates (checkGaze (checkGaze dwellBlockedS (some elW) 1300).1 none 1400).2 = 0 ∧
    (checkGaze (checkGaze dwellBlockedS (some elW) 1300).1 none 1400).1.hoveredWord = none := by
  refine ⟨?_, ?_, ?_, ?_⟩ <;>
    (simp +decide [checkGaze, gazeNotePhase, gazeWordPhase, noteTrigger, dwellFireGuard,
      dwellBlockedS, hoverS, st0, elW, countTranslates, min_def]
     try norm_num)

/-- C3 (amended): on a stable word target with a live timer, a non-firing
tick sets progress to clamp01(elapsed / 1200), and this progress is
monotonically non-decreasing in the tick time; progress resets to 0 the
tick the target id changes, the target disappears, or the probe misses
everything; a tick whose fire guard holds (progress reached 1, no
pending translation, no definition shown for this word) emits exactly
one activation and forces progress and the timer to 0; and over any
uninterrupted dwell on one fixed probe target at most one activation
fires in total, with zero possible when the guard stays blocked. -/
theorem dwell_state_machine :
    (∀ (s : AppState) (w snt : String) (now : ℚ), w ≠ "" →
      s.hoveredWord = some w → 0 < s.lastHoverTime → s.lastHoverTime ≤ now →
      ¬ dwellFireGuard s w now →
      (checkGaze s (some ⟨none, none, some (w, snt)⟩) now).1.dwellProgress
        = specClamp01 ((now - s.lastHoverTime) / 1200)) ∧
    (∀ (s : AppState) (w snt : String) (n1 n2 : ℚ), w ≠ "" →
      s.hoveredWord = some w → 0 < s.lastHoverTime → s.lastHoverTime ≤ n1 → n1 ≤ n2 →
      ¬ dwellFireGuard s w n1 → ¬ dwellFireGuard s w n2 →
      (checkGaze s (some ⟨none, none, some (w, snt)⟩) n1).1.dwellProgress
        ≤ (checkGaze s (some ⟨none, none, some (w, snt)⟩) n2).1.dwellProgress) ∧
    (∀ (s : AppState) (w w2 snt : String) (now : ℚ), w2 ≠ "" →
      s.hoveredWord = some w → w ≠ w2 →
      (checkGaze s (some ⟨none, none, some (w2, snt)⟩) now).1.dwellProgress = 0) ∧
    (∀ (s : AppState) (e : Element) (w : String) (now : ℚ), e.wordAnc = none →
      s.hoveredWord = some w → (checkGaze s (some e) now).1.dwellProgress = 0) ∧
    (∀ (s : AppState) (now : ℚ), (checkGaze s none now).1.dwellProgress = 0) ∧
    (∀ (s : AppState) (w snt : String) (now : ℚ), w ≠ "" →
      s.hoveredWord = some w → 0 < s.lastHoverTime → dwellFireGuard s w now →
      countTranslates (checkGaze s (some ⟨none, none, some (w, snt)⟩) now).2 = 1 ∧
      (checkGaze s (some ⟨none, none, some (w, snt)⟩) now).1.dwellProgress = 0 ∧
      (checkGaze s (some ⟨none, none, some (w, snt)⟩) now).1.lastHoverTime = 0) ∧
    (∀ (s : AppState) (el : Option Element) (ts : List ℚ),
      countTranslates (gazeRun s el ts).2 ≤ 1) := by
  refine ⟨dwell_tick_progress, ?_, ?_, ?_, ?_, ?_,
    fun s el ts => gazeRun_translates_le_one el ts s⟩
  · intro s w snt n1 n2 hw hh ht h1 h12 hf1 hf2
    rw [dwell_tick_progress s w snt n1 hw hh ht h1 hf1,
      dwell_tick_progress s w snt n2 hw hh ht (h1.trans h12) hf2]
    exact specClamp01_mono (by
      have h1200 : (0 : ℚ) < 1200 := by norm_num
      exact (div_le_div_iff_of_pos_right h1200).mpr (by linarith))
  · intro s w w2 snt now hw2 hh hne
    rw [checkGaze_some, gazeNotePhase_no_note s _ rfl]
    dsimp only
    unfold gazeWordPhase
    simp [hw2, hh, hne]
  · intro s e w now hnone hh
    obtain ⟨hn1, -, -, -, -, -⟩ := gazeNotePhase_preserves s e
    rw [checkGaze_some]
    unfold gazeWordPhase
    simp only [hnone]
    rw [if_pos (by rw [hn1, hh]; rfl)]
  · intro s now
    simp [checkGaze]
  · intro s w snt now hw hh ht hf
    rw [checkGaze_some, gazeNotePhase_no_note s _ rfl]
    dsimp only
    rw [gazeWordPhase_stable s _ w snt now rfl hw hh ht, if_pos hf]
    exact ⟨rfl, rfl, rfl⟩

/-- Witness for the C3 theorem: a mid-dwell tick at 700ms on the hover
state shows the clamp01 progress formula, and a ripe tick at 1300ms
fires exactly one activation and zeroes the progress and timer. -/
theorem dwell_state_machine_witness :
    (checkGaze hoverS (some ⟨none, none, some ("w", "s")⟩) 700).1.dwellProgress
      = specClamp01 ((700 - hoverS.lastHoverTime) / 1200) ∧
    countTranslates (checkGaze hoverS (some ⟨none, none, some ("w", "s")⟩) 1300).2 = 1 := by
  constructor
  · exact dwell_state_machine.1 hoverS "w" "s" 700 (by decide) rfl
      (by norm_num [hoverS, st0]) (by norm_num [hoverS, st0])
      (by simp [dwellFireGuard, hoverS, st0, min_def]; norm_num)
  · exact (dwell_state_machine.2.2.2.2.2.1 hoverS "w" "s" 1300 (by decide) rfl
      (by norm_num [hoverS, st0])
      (by refine ⟨?_, rfl, Or.inl rfl⟩; norm_num [hoverS, st0, min_def])).1

/-! ## Event inversion lemmas -/

theorem countTranslates_eq_zero (l : List Event)
    (h : ∀ w snt, Event.translate w snt ∉ l) : countTranslates l = 0 := by
  rw [countTranslates, List.countP_eq_zero]
  intro a ha
  cases a with
  | translate w snt => exact absurd ha (h w snt)
  | scoreNote n => simp
  | togglePlay => simp

theorem noteTrigger_no_translate (s : AppState) (m w snt : String) :
    Event.translate w snt ∉ (noteTrigger s m).2 := by
  unfold noteTrigger
  split_ifs <;> simp

theorem handleScreenClick_translate_inv (s : AppState) (el : Option Element) (now : ℚ)
    (w snt : String) (hmem : Event.translate w snt ∈ (handleScreenClick s el now).2) :
    s.isTranslating = false ∧ s.definition = none ∧ s.isGameMode = false := by
  rcases el with _ | ⟨aa, na, wa⟩
  · simp only [handleScreenClick] at hmem
    split_ifs at hmem <;> simp at hmem
  · rcases aa with _ | a
    · rcases na with _ | nid
      · rcases wa with _ | ⟨w2, s2⟩
        · simp only [handleScreenClick] at hmem
          split_ifs at hmem <;> simp at hmem
        · simp only [handleScreenClick] at hmem
          split_ifs at hmem with hc hclose hguard
          · simp at hmem
          · simp at hmem
          · exact hguard
          · simp at hmem
      · simp only [handleScreenClick] at hmem
        split_ifs at hmem <;>
          first
            | simp at hmem
            | exact absurd hmem (noteTrigger_no_translate s nid w snt)
    · simp only [handleScreenClick] at hmem
      split_ifs at hmem <;> simp at hmem

theorem checkGaze_translate_inv (s : AppState) (el : Option Element) (now : ℚ)
    (w snt : String) (hmem : Event.translate w snt ∈ (checkGaze s el now).2) :
    s.isTranslating = false ∧ s.definition ≠ some w := by
  rcases el with _ | ⟨aa, na, wa⟩
  · simp [checkGaze] at hmem
  · rw [checkGaze_some] at hmem
    obtain ⟨-, -, -, h4, h5, hn6⟩ := gazeNotePhase_preserves s ⟨aa, na, wa⟩
    rcases List.mem_append.mp hmem with hnp | hwp
    · exfalso
      have hz := List.countP_eq_zero.mp (by simpa [countTranslates] using hn6) _ hnp
      simp at hz
    · rcases wa with _ | ⟨w2, s2⟩
      · simp only [gazeWordPhase] at hwp
        split_ifs at hwp <;> simp at hwp
      · simp only [gazeWordPhase] at hwp
        split_ifs at hwp with hw hhov hlht hf
        · simp at hwp
        · simp only [List.mem_singleton, Event.translate.injEq] at hwp
          obtain ⟨rfl, rfl⟩ := hwp
          refine ⟨h4 ▸ hf.2.1, ?_⟩
          rcases hf.2.2 with hd | hd
          · rw [← h5, hd]
            simp
          · rw [← h5]
            exact hd
        · simp at hwp
        · simp at hwp
        · simp at hwp

/-! ## C8: suppression of word activations -/

/-- C8 counterexample: with rhythm-game mode active, a ripe dwell tick
on a word target still fires the translation lookup, though the claim
says word activation never fires during rhythm-game mode. -/
theorem gaze_translate_fires_in_game_mode :
    dwellGameS.isGameMode = true ∧
    Event.translate "w" "s" ∈ (checkGaze dwellGameS (some elW) 1300).2 := by
  refine ⟨rfl, ?_⟩
  simp +decide [checkGaze, gazeNotePhase, gazeWordPhase, noteTrigger, dwellFireGuard,
    dwellGameS, hoverS, st0, elW, min_def]
  norm_num

/-- C8 (amended): a word activation never fires while a lookup is
pending, in either path; the click path additionally never fires while
any definition is displayed or while rhythm-game mode is active; the
gaze path only guarantees that a firing tick has no pending lookup and
no displayed definition for the fired word, so a definition for another
word or active rhythm-game mode does not suppress it there. -/
theorem word_activation_suppression :
    (∀ (s : AppState) (el : Option Element) (now : ℚ), s.isTranslating = true →
      countTranslates (handleScreenClick s el now).2 = 0 ∧
      countTranslates (checkGaze s el now).2 = 0) ∧
    (∀ (s : AppState) (el : Option Element) (now : ℚ) (d : String), s.definition = some d →
      countTranslates (handleScreenClick s el now).2 = 0) ∧
    (∀ (s : AppState) (el : Option Element) (now : ℚ), s.isGameMode = true →
      countTranslates (handleScreenClick s el now).2 = 0) ∧
    (∀ (s : AppState) (el : Option Element) (now : ℚ) (w snt : String),
      Event.translate w snt ∈ (checkGaze s el now).2 →
      s.isTranslating = false ∧ s.definition ≠ some w) := by
  refine ⟨fun s el now h => ⟨?_, ?_⟩, fun s el now d h => ?_, fun s el now h => ?_,
    fun s el now w snt h => checkGaze_translate_inv s el now w snt h⟩
  · exact countTranslates_eq_zero _ fun w snt hmem =>
      by simpa [h] using (handleScreenClick_translate_inv s el now w snt hmem).1
  · exact countTranslates_eq_zero _ fun w snt hmem =>
      by simpa [h] using (checkGaze_translate_inv s el now w snt hmem).1
  · exact countTranslates_eq_zero _ fun w snt hmem =>
      by simpa [h] using (handleScreenClick_translate_inv s el now w snt hmem).2.1
  · exact countTranslates_eq_zero _ fun w snt hmem =>
      by simpa [h] using (handleScreenClick_translate_inv s el now w snt hmem).2.2

/-- Witness for the C8 theorem at concrete states: a pending lookup, a
displayed definition and game mode each silence the click path, a
pending lookup silences the gaze path, and the firing gaze tick from the
plain hover state indeed had no pending lookup and no definition for the
fired word. -/
theorem word_activation_suppression_witness :
    countTranslates (handleScreenClick dwellBlockedS (some elW) 0).2 = 0 ∧
    countTranslates (checkGaze dwellBlockedS (some elW) 1300).2 = 0 ∧
    countTranslates (handleScreenClick { st0 with definition := some "d" } (some elW) 0).2 = 0 ∧
    countTranslates (handleScreenClick dwellGameS (some elW) 0).2 = 0 ∧
    (hoverS.isTranslating = false ∧ hoverS.definition ≠ some "w") := by
  refine ⟨(word_activation_suppression.1 dwellBlockedS (some elW) 0 rfl).1,
    (word_activation_suppression.1 dwellBlockedS (some elW) 1300 rfl).2,
    word_activation_suppression.2.1 _ (some elW) 0 "d" rfl,
    word_activation_suppression.2.2.1 dwellGameS (some elW) 0 rfl,
    word_activation_suppression.2.2.2 hoverS (some elW) 1300 "w" "s" ?_⟩
  simp +decide [checkGaze, gazeNotePhase, gazeWordPhase, noteTrigger, dwellFireGuard,
    hoverS, st0, elW, min_def]
  norm_num

/-! ## Scoring-count lemmas -/

theorem countScores_append (a b : List Event) :
    countScores (a ++ b) = countScores a + countScores b := by
  simp [countScores, List.countP_append]

theorem gazeWordPhase_no_scores (s : AppState) (e : Element) (now : ℚ) :
    countScores (gazeWordPhase s e now).2 = 0 := by
  unfold gazeWordPhase
  rcases h : e.wordAnc with _ | ⟨w, snt⟩ <;> simp [h] <;> split_ifs <;>
    simp [countScores]

theorem gazeWordPhase_translates_le_one (s : AppState) (e : Element) (now : ℚ) :
    countTranslates (gazeWordPhase s e now).2 ≤ 1 := by
  unfold gazeWordPhase
  rcases h : e.wordAnc with _ | ⟨w, snt⟩ <;> simp [h] <;> split_ifs <;>
    simp [countTranslates]

theorem noteTrigger_scores_le_one (s : AppState) (m : String) :
    countScores (noteTrigger s m).2 ≤ 1 := by
  unfold noteTrigger
  split_ifs <;> simp [countScores]

theorem gazeNotePhase_scores (s : AppState) (e : Element) :
    countScores (gazeNotePhase s e).2 ≤ 1 ∧
    (e.noteAnc = none → countScores (gazeNotePhase s e).2 = 0) ∧
    (s.isGameMode = false → countScores (gazeNotePhase s e).2 = 0) := by
  unfold gazeNotePhase
  split_ifs with hg
  · rcases h : e.noteAnc with _ | nid
    · simp [h, countScores]
    · refine ⟨noteTrigger_scores_le_one s nid, ?_, ?_⟩
      · intro hn
        simp at hn
      · intro hgf
        rw [hgf] at hg
        simp at hg
  · simp [countScores]

/-! ## C4: probe-point classification -/

/-- C4 counterexample: a gaze tick in rhythm-game mode over an element
matching both a fresh game note and a ripe hovered word takes both the
note-scoring path and the word-lookup path, emitting two activations in
one tick, against the claimed first-match-wins single activation path. -/
theorem gaze_tick_two_activation_paths :
    (checkGaze dwellGameS (some elNW) 1300).2
      = [Event.scoreNote "n1", Event.translate "w" "s"] ∧
    countScores (checkGaze dwellGameS (some elNW) 1300).2 = 1 ∧
    countTranslates (checkGaze dwellGameS (some elNW) 1300).2 = 1 := by
  refine ⟨?_, ?_, ?_⟩ <;>
    (simp +decide [checkGaze, gazeNotePhase, gazeWordPhase, noteTrigger, dwellFireGuard,
      dwellGameS, hoverS, st0, elNW, countScores, countTranslates, min_def]
     try norm_num)

/-- C4 (amended): the click path classifies in the priority order
action, then game note, then word, first match winning: an action
element yields no scoring or lookup and leaves the note, word and
translation state untouched, and a note element yields no lookup; the
gaze path has no action layer and checks the note and word layers
independently on the same element, so it emits at most one scoring and
at most one lookup per tick (and none for the absent layer, and no
scoring outside rhythm-game mode), but an element matching both layers
can take both paths in one tick. -/
theorem classification_discipline :
    (∀ (s : AppState) (e : Element) (a : String) (now : ℚ),
      s.isCalibrationMode = false → e.actionAnc = some a →
      ((handleScreenClick s (some e) now).2 = [] ∨
        (handleScreenClick s (some e) now).2 = [Event.togglePlay])) ∧
    (∀ (s : AppState) (e : Element) (a : String) (now : ℚ),
      s.isCalibrationMode = false → e.actionAnc = some a →
      (handleScreenClick s (some e) now).1.gameStats = s.gameStats ∧
      (handleScreenClick s (some e) now).1.hitObjects = s.hitObjects ∧
      (handleScreenClick s (some e) now).1.isTranslating = s.isTranslating ∧
      (handleScreenClick s (some e) now).1.hoveredWord = s.hoveredWord) ∧
    (∀ (s : AppState) (e : Element) (nid : String) (now : ℚ),
      s.isCalibrationMode = false → e.actionAnc = none → e.noteAnc = some nid →
      countTranslates (handleScreenClick s (some e) now).2 = 0 ∧
      (handleScreenClick s (some e) now).1.isTranslating = s.isTranslating ∧
      (handleScreenClick s (some e) now).1.definition = s.definition) ∧
    (∀ (s : AppState) (el : Option Element) (now : ℚ),
      countTranslates (checkGaze s el now).2 ≤ 1 ∧
      countScores (checkGaze s el now).2 ≤ 1) ∧
    (∀ (s : AppState) (e : Element) (now : ℚ), e.noteAnc = none →
      countScores (checkGaze s (some e) now).2 = 0) ∧
    (∀ (s : AppState) (e : Element) (now : ℚ), s.isGameMode = false →
      countScores (checkGaze s (some e) now).2 = 0) ∧
    (∀ (s : AppState) (e : Element) (now : ℚ), e.wordAnc = none →
      countTranslates (checkGaze s (some e) now).2 = 0) := by
  refine ⟨?_, ?_, ?_, ?_, ?_, ?_,
    fun s e now h => checkGaze_no_word s e now h⟩
  · intro s e a now hc ha
    obtain ⟨aa, na, wa⟩ := e
    replace ha : aa = some a := ha
    subst ha
    simp only [handleScreenClick]
    rw [if_neg (by simp [hc])]
    split_ifs <;> simp
  · intro s e a now hc ha
    obtain ⟨aa, na, wa⟩ := e
    replace ha : aa = some a := ha
    subst ha
    simp only [handleScreenClick]
    rw [if_neg (by simp [hc])]
    split_ifs <;> exact ⟨rfl, rfl, rfl, rfl⟩
  · intro s e nid now hc ha hn
    obtain ⟨aa, na, wa⟩ := e
    replace ha : aa = none := ha
    replace hn : na = some nid := hn
    subst ha
    subst hn
    simp only [handleScreenClick]
    rw [if_neg (by simp [hc])]
    unfold noteTrigger
    split_ifs <;> exact ⟨rfl, rfl, rfl⟩
  · intro s el now
    rcases el with _ | e
    · simp [checkGaze, countTranslates, countScores]
    · rw [checkGaze_some, countTranslates_append, countScores_append]
      obtain ⟨-, -, -, -, -, hn6⟩ := gazeNotePhase_preserves s e
      constructor
      · rw [hn6]
        simpa using gazeWordPhase_translates_le_one (gazeNotePhase s e).1 e now
      · rw [gazeWordPhase_no_scores (gazeNotePhase s e).1 e now]
        simpa using (gazeNotePhase_scores s e).1
  · intro s e now hn
    rw [checkGaze_some, countScores_append,
      gazeWordPhase_no_scores (gazeNotePhase s e).1 e now,
      (gazeNotePhase_scores s e).2.1 hn]
  · intro s e now hg
    rw [checkGaze_some, countScores_append,
      gazeWordPhase_no_scores (gazeNotePhase s e).1 e now,
      (gazeNotePhase_scores s e).2.2 hg]

/-- Witness for the C4 theorem: a recenter control preempts a note and a
word on the same clicked element, and a clicked note element fires no
lookup. -/
theorem classification_discipline_witness :
    ((handleScreenClick st0 (some ⟨some "recenter", some "n1", some ("w", "s")⟩) 0).2 = [] ∨
      (handleScreenClick st0 (some ⟨some "recenter", some "n1", some ("w", "s")⟩) 0).2
        = [Event.togglePlay]) ∧
    (handleScreenClick st0 (some ⟨some "recenter", some "n1", some ("w", "s")⟩) 0).1.gameStats
      = st0.gameStats ∧
    countTranslates (handleScreenClick st0 (some ⟨none, some "n1", some ("w", "s")⟩) 0).2 = 0 :=
  ⟨classification_discipline.1 st0 ⟨some "recenter", some "n1", some ("w", "s")⟩ "recenter" 0
      rfl rfl,
    (classification_discipline.2.1 st0 ⟨some "recenter", some "n1", some ("w", "s")⟩ "recenter" 0
      rfl rfl).1,
    (classification_discipline.2.2.1 st0 ⟨none, some "n1", some ("w", "s")⟩ "n1" 0
      rfl rfl rfl).1⟩

/-! ## Per-note scoring-count lemmas -/

theorem countScoresOf_append (nid : String) (a b : List Event) :
    countScoresOf nid (a ++ b) = countScoresOf nid a + countScoresOf nid b := by
  simp [countScoresOf, List.countP_append]

theorem countScoresOf_nil (nid : String) : countScoresOf nid [] = 0 := rfl

theorem countScoresOf_play (nid : String) : countScoresOf nid [Event.togglePlay] = 0 := by
  simp [countScoresOf]

theorem countScoresOf_note (nid m : String) :
    countScoresOf nid [Event.scoreNote m] = if m = nid then 1 else 0 := by
  by_cases h : m = nid <;> simp [countScoresOf, h]

theorem confirmRecenter_pres (s : AppState) :
    (confirmRecenter s).hitObjects = s.hitObjects ∧
    (confirmRecenter s).gameStats = s.gameStats := by
  unfold confirmRecenter
  rcases hc : s.controlMode <;> rcases hr : s.lastRawOrientation <;> simp [hc, hr]

theorem noteTrigger_consumed (s : AppState) (m : String) (h : m ∈ s.hitObjects) :
    noteTrigger s m = (s, []) := by
  unfold noteTrigger
  rw [if_neg]
  simp [h]

theorem noteTrigger_scoresOf (s : AppState) (m nid : String) :
    countScoresOf nid (noteTrigger s m).2 ≤ 1 ∧
    (1 ≤ countScoresOf nid (noteTrigger s m).2 → nid ∈ (noteTrigger s m).1.hitObjects) ∧
    (nid ∈ s.hitObjects → countScoresOf nid (noteTrigger s m).2 = 0 ∧
      nid ∈ (noteTrigger s m).1.hitObjects) := by
  unfold noteTrigger
  split_ifs with h
  · dsimp only
    rw [countScoresOf_note]
    by_cases hmn : m = nid
    · subst hmn
      rw [if_pos rfl]
      exact ⟨le_rfl, fun _ => List.mem_cons_self _ _, fun hm => absurd hm h.2⟩
    · rw [if_neg hmn]
      exact ⟨Nat.zero_le 1, fun hcon => absurd hcon (by simp [countScoresOf]),
        fun hm => ⟨rfl, List.mem_cons_of_mem _ hm⟩⟩
  · exact ⟨Nat.zero_le 1, fun hcon => absurd hcon (by simp [countScoresOf]), fun hm => ⟨rfl, hm⟩⟩

theorem gazeWordPhase_scoresOf (s : AppState) (e : Element) (now : ℚ) (nid : String) :
    countScoresOf nid (gazeWordPhase s e now).2 = 0 := by
  unfold gazeWordPhase
  rcases h : e.wordAnc with _ | ⟨w, snt⟩ <;> simp [h] <;> split_ifs <;>
    simp [countScoresOf]

theorem gazeNotePhase_scoresOf (s : AppState) (e : Element) (nid : String) :
    countScoresOf nid (gazeNotePhase s e).2 ≤ 1 ∧
    (1 ≤ countScoresOf nid (gazeNotePhase s e).2 → nid ∈ (gazeNotePhase s e).1.hitObjects) ∧
    (nid ∈ s.hitObjects → countScoresOf nid (gazeNotePhase s e).2 = 0 ∧
      nid ∈ (gazeNotePhase s e).1.hitObjects) := by
  unfold gazeNotePhase
  split_ifs with hg
  · rcases h : e.noteAnc with _ | m
    · exact ⟨Nat.zero_le 1, fun hcon => absurd hcon (by simp [countScoresOf]), fun hm => ⟨rfl, hm⟩⟩
    · exact noteTrigger_scoresOf s m nid
  · exact ⟨Nat.zero_le 1, fun hcon => absurd hcon (by simp [countScoresOf]), fun hm => ⟨rfl, hm⟩⟩

theorem handleScreenClick_scoresOf (s : AppState) (el : Option Element) (now : ℚ)
    (nid : String) :
    countScoresOf nid (handleScreenClick s el now).2 ≤ 1 ∧
    (1 ≤ countScoresOf nid (handleScreenClick s el now).2 →
      nid ∈ (handleScreenClick s el now).1.hitObjects) ∧
    (nid ∈ s.hitObjects → countScoresOf nid (handleScreenClick s el now).2 = 0 ∧
      nid ∈ (handleScreenClick s el now).1.hitObjects) := by
  rcases el with _ | ⟨aa, na, wa⟩
  · simp only [handleScreenClick]
    split_ifs
    · exact ⟨Nat.zero_le 1, fun hcon => absurd hcon (by simp [countScoresOf]),
        fun hm => ⟨rfl, (confirmRecenter_pres s).1 ▸ hm⟩⟩
    all_goals exact ⟨Nat.zero_le 1, fun hcon => absurd hcon (by simp [countScoresOf]), fun hm => ⟨rfl, hm⟩⟩
  · rcases aa with _ | a
    · rcases na with _ | m
      · rcases wa with _ | ⟨w2, s2⟩
        · simp only [handleScreenClick]
          split_ifs
          · exact ⟨Nat.zero_le 1, fun hcon => absurd hcon (by simp [countScoresOf]),
              fun hm => ⟨rfl, (confirmRecenter_pres s).1 ▸ hm⟩⟩
          all_goals exact ⟨Nat.zero_le 1, fun hcon => absurd hcon (by simp [countScoresOf]),
            fun hm => ⟨rfl, hm⟩⟩
        · simp only [handleScreenClick]
          split_ifs
          · exact ⟨Nat.zero_le 1, fun hcon => absurd hcon (by simp [countScoresOf]),
              fun hm => ⟨rfl, (confirmRecenter_pres s).1 ▸ hm⟩⟩
          all_goals exact ⟨Nat.zero_le 1, fun hcon => absurd hcon (by simp [countScoresOf]),
            fun hm => ⟨rfl, hm⟩⟩
      · simp only [handleScreenClick]
        split_ifs
        · exact ⟨Nat.zero_le 1, fun hcon => absurd hcon (by simp [countScoresOf]),
            fun hm => ⟨rfl, (confirmRecenter_pres s).1 ▸ hm⟩⟩
        · exact noteTrigger_scoresOf s m nid
    · simp only [handleScreenClick]
      split_ifs
      · exact ⟨Nat.zero_le 1, fun hcon => absurd hcon (by simp [countScoresOf]),
          fun hm => ⟨rfl, (confirmRecenter_pres s).1 ▸ hm⟩⟩
      all_goals exact ⟨Nat.zero_le 1, fun hcon => absurd hcon (by simp [countScoresOf]),
        fun hm => ⟨rfl, hm⟩⟩

theorem checkGaze_scoresOf (s : AppState) (el : Option Element) (now : ℚ) (nid : String) :
    countScoresOf nid (checkGaze s el now).2 ≤ 1 ∧
    (1 ≤ countScoresOf nid (checkGaze s el now).2 →
      nid ∈ (checkGaze s el now).1.hitObjects) ∧
    (nid ∈ s.hitObjects → countScoresOf nid (checkGaze s el now).2 = 0 ∧
      nid ∈ (checkGaze s el now).1.hitObjects) := by
  rcases el with _ | e
  · exact ⟨Nat.zero_le 1, fun hcon => absurd hcon (by simp [checkGaze, countScoresOf]),
      fun hm => ⟨rfl, hm⟩⟩
  · rw [checkGaze_some, countScoresOf_append, gazeWordPhase_scoresOf]
    obtain ⟨h1, h2, h3⟩ := gazeNotePhase_scoresOf s e nid
    have hho : (gazeWordPhase (gazeNotePhase s e).1 e now).1.hitObjects
        = (gazeNotePhase s e).1.hitObjects := gazeWordPhase_hitObjects _ _ _
    refine ⟨by simpa using h1, fun hp => ?_, fun hm => ?_⟩
    · rw [hho]
      exact h2 (by simpa using hp)
    · obtain ⟨hz, hm2⟩ := h3 hm
      exact ⟨by simp [hz], hho ▸ hm2⟩

theorem stepInput_scoresOf (s : AppState) (i : Input) (nid : String) :
    countScoresOf nid (stepInput s i).2 ≤ 1 ∧
    (1 ≤ countScoresOf nid (stepInput s i).2 → nid ∈ (stepInput s i).1.hitObjects) ∧
    (nid ∈ s.hitObjects → countScoresOf nid (stepInput s i).2 = 0 ∧
      nid ∈ (stepInput s i).1.hitObjects) := by
  cases i with
  | click el now => exact handleScreenClick_scoresOf s el now nid
  | gaze el now => exact checkGaze_scoresOf s el now nid

theorem runInputs_scoresOf_zero (nid : String) (l : List Input) :
    ∀ s : AppState, nid ∈ s.hitObjects →
      countScoresOf nid (runInputs s l).2 = 0 ∧ nid ∈ (runInputs s l).1.hitObjects := by
  induction l with
  | nil => intro s h; exact ⟨rfl, h⟩
  | cons i rest ih =>
    intro s h
    obtain ⟨-, -, h3⟩ := stepInput_scoresOf s i nid
    obtain ⟨hz, hm⟩ := h3 h
    obtain ⟨hz2, hm2⟩ := ih _ hm
    rw [runInputs]
    refine ⟨?_, hm2⟩
    rw [countScoresOf_append, hz, hz2]

theorem runInputs_scoresOf_le_one (nid : String) (l : List Input) :
    ∀ s : AppState, countScoresOf nid (runInputs s l).2 ≤ 1 := by
  induction l with
  | nil => intro s; simp [runInputs, countScoresOf_nil]
  | cons i rest ih =>
    intro s
    rw [runInputs, countScoresOf_append]
    obtain ⟨h1, h2, -⟩ := stepInput_scoresOf s i nid
    rcases Nat.eq_zero_or_pos (countScoresOf nid (stepInput s i).2) with hz | hp
    · rw [hz]
      simpa using ih _
    · have h1e : countScoresOf nid (stepInput s i).2 = 1 := le_antisymm h1 hp
      rw [h1e, (runInputs_scoresOf_zero nid rest _ (h2 hp)).1]

theorem handleScreenClick_stats_consumed (s : AppState) (aa : Option String) (nid : String)
    (wa : Option (String × String)) (now : ℚ) (hmem : nid ∈ s.hitObjects) :
    (handleScreenClick s (some ⟨aa, some nid, wa⟩) now).1.gameStats = s.gameStats := by
  rcases aa with _ | a
  · simp only [handleScreenClick]
    split_ifs with hc
    · exact (confirmRecenter_pres s).2
    · rw [noteTrigger_consumed s nid hmem]
  · simp only [handleScreenClick]
    split_ifs with hc h1 h2
    · exact (confirmRecenter_pres s).2
    all_goals rfl

theorem checkGaze_stats_consumed (s : AppState) (aa : Option String) (nid : String)
    (wa : Option (String × String)) (now : ℚ) (hmem : nid ∈ s.hitObjects) :
    (checkGaze s (some ⟨aa, some nid, wa⟩) now).1.gameStats = s.gameStats := by
  have hnp : gazeNotePhase s ⟨aa, some nid, wa⟩ = (s, []) := by
    simp only [gazeNotePhase]
    rw [noteTrigger_consumed s nid hmem, ite_self]
  have hgs := gazeWordPhase_gameStats s ⟨aa, some nid, wa⟩ now
  rw [checkGaze_some, hnp]
  exact hgs

/-! ## C6: consumed notes never re-score -/

/-- C6: a game note whose id is already in the shared consumed-id set
never re-triggers scoring: both a click and a gaze tick over such a
note leave the game statistics unchanged and emit no scoring event for
that id, and over any whole session of clicks and gaze ticks each note
id is scored at most once. -/
theorem note_consumed_idempotent :
    (∀ (s : AppState) (nid : String) (aa : Option String)
        (wa : Option (String × String)) (now : ℚ),
      (handleScreenClick { s with hitObjects := nid :: s.hitObjects }
          (some ⟨aa, some nid, wa⟩) now).1.gameStats = s.gameStats ∧
      countScoresOf nid (handleScreenClick { s with hitObjects := nid :: s.hitObjects }
          (some ⟨aa, some nid, wa⟩) now).2 = 0) ∧
    (∀ (s : AppState) (nid : String) (aa : Option String)
        (wa : Option (String × String)) (now : ℚ),
      (checkGaze { s with hitObjects := nid :: s.hitObjects }
          (some ⟨aa, some nid, wa⟩) now).1.gameStats = s.gameStats ∧
      countScoresOf nid (checkGaze { s with hitObjects := nid :: s.hitObjects }
          (some ⟨aa, some nid, wa⟩) now).2 = 0) ∧
    (∀ (s : AppState) (l : List Input) (nid : String),
      countScoresOf nid (runInputs s l).2 ≤ 1) := by
  refine ⟨fun s nid aa wa now => ?_, fun s nid aa wa now => ?_,
    fun s l nid => runInputs_scoresOf_le_one nid l s⟩
  · exact ⟨handleScreenClick_stats_consumed _ aa nid wa now (List.mem_cons_self _ _),
      ((handleScreenClick_scoresOf _ _ now nid).2.2 (List.mem_cons_self _ _)).1⟩
  · exact ⟨checkGaze_stats_consumed _ aa nid wa now (List.mem_cons_self _ _),
      ((checkGaze_scoresOf _ _ now nid).2.2 (List.mem_cons_self _ _)).1⟩

/-! ## Spawner lemmas -/

theorem moveNote_id (hits : List String) (n : GameNote) : (moveNote hits n).id = n.id := rfl

theorem moveNote_spawn (newId : String) (r : ℚ) (hits : List String) (hhit : newId ∉ hits) :
    moveNote hits (spawnNote newId r)
      = { id := newId, lane := ⌊r * 4⌋, z := SPAWN_Z + SPEED, isHit := false } := by
  simp [moveNote, spawnNote, hhit]

theorem spawner_old_notes_countP (notes : List GameNote) (hits : List String) (newId : String)
    (hfresh : notes.countP (fun n => n.id == newId) = 0) :
    ((notes.map (moveNote hits)).filter
      (fun n => decide (n.z < DESPAWN_Z) && !n.isHit)).countP (fun n => n.id == newId) = 0 := by
  refine Nat.le_zero.mp ?_
  rw [List.countP_filter, List.countP_map]
  calc notes.countP ((fun n => (n.id == newId)
          && (decide (n.z < DESPAWN_Z) && !n.isHit)) ∘ moveNote hits)
      ≤ notes.countP (fun n => n.id == newId) := by
        refine List.countP_mono_left ?_
        intro a ha h
        exact (Bool.and_eq_true _ _).mp h |>.1
    _ = 0 := hfresh

theorem spawner_old_notes_id (notes : List GameNote) (hits : List String) (newId : String)
    (hfresh : notes.countP (fun n => n.id == newId) = 0) (n : GameNote)
    (hn : n ∈ (notes.map (moveNote hits)).filter
      (fun n => decide (n.z < DESPAWN_Z) && !n.isHit)) : n.id ≠ newId := by
  intro hid
  obtain ⟨m, hm, rfl⟩ := List.mem_map.mp (List.mem_of_mem_filter hn)
  have := List.countP_eq_zero.mp hfresh m hm
  simp only [moveNote_id] at hid
  simp [hid] at this

/-! ## C7: the beat-synchronized note spawner -/

/-- C7 counterexample: with the bass mean at 255, a frame exactly
COOLDOWN_FRAMES frames after the last spawn (15 frames elapsed, the
claimed at-least-the-cooldown condition) spawns nothing, because the
source requires the strict inequality frame gap > 15. -/
theorem cooldown_boundary_no_spawn :
    bassAvg [255, 255, 255, 255, 255] > BEAT_THRESHOLD ∧
    (⟨15, 1, []⟩ : SpawnerState).frameCount + 1 - (⟨15, 1, []⟩ : SpawnerState).lastBeatFrame
      = COOLDOWN_FRAMES ∧
    (updateGame ⟨15, 1, []⟩ true true [255, 255, 255, 255, 255] 0 "fresh" []).notes = [] ∧
    (updateGame ⟨15, 1, []⟩ true true [255, 255, 255, 255, 255] 0 "fresh" []).lastBeatFrame
      = 1 := by
  refine ⟨by norm_num [bassAvg, BEAT_THRESHOLD], rfl, ?_, ?_⟩ <;>
    simp +decide [updateGame, COOLDOWN_FRAMES]

/-- C7 (amended): on a playing frame with a live analyser and a fresh
note id, exactly one note with that id appears if and only if the mean
of the five lowest bins exceeds the threshold and strictly more than
COOLDOWN_FRAMES frames have elapsed since the last spawn (not at least
the cooldown: the boundary frame spawns nothing); the spawned note sits
at the uniformly drawn lane, the floor of 4r, which lies in {0,1,2,3},
was created at the spawn depth and advanced once by SPEED in the same
frame, and the spawn frame is recorded; a non-qualifying frame leaves
the last-spawn frame unchanged, and a paused frame changes nothing. -/
theorem beat_spawner_behavior (s : SpawnerState) (freq : List ℕ) (r : ℚ)
    (newId : String) (hits : List String)
    (hfresh : s.notes.countP (fun n => n.id == newId) = 0)
    (hhit : newId ∉ hits) (hr0 : 0 ≤ r) (hr1 : r < 1) :
    ((updateGame s true true freq r newId hits).notes.countP (fun n => n.id == newId)
      = if bassAvg freq > BEAT_THRESHOLD ∧ s.frameCount + 1 - s.lastBeatFrame > COOLDOWN_FRAMES
        then 1 else 0) ∧
    (bassAvg freq > BEAT_THRESHOLD → s.frameCount + 1 - s.lastBeatFrame > COOLDOWN_FRAMES →
      (updateGame s true true freq r newId hits).lastBeatFrame = s.frameCount + 1 ∧
      ∀ n ∈ (updateGame s true true freq r newId hits).notes, n.id = newId →
        n.lane = ⌊r * 4⌋ ∧ 0 ≤ n.lane ∧ n.lane ≤ 3 ∧ n.z = SPAWN_Z + SPEED ∧
          n.isHit = false) ∧
    (¬ (bassAvg freq > BEAT_THRESHOLD ∧
        s.frameCount + 1 - s.lastBeatFrame > COOLDOWN_FRAMES) →
      (updateGame s true true freq r newId hits).lastBeatFrame = s.lastBeatFrame) ∧
    updateGame s false true freq r newId hits = s := by
  have hlane0 : (0 : ℤ) ≤ ⌊r * 4⌋ := by
    refine Int.le_floor.mpr ?_
    push_cast
    nlinarith
  have hlane3 : ⌊r * 4⌋ ≤ 3 := by
    have : ⌊r * 4⌋ < 4 := by
      refine Int.floor_lt.mpr ?_
      push_cast
      nlinarith
    omega
  by_cases hcond : bassAvg freq > BEAT_THRESHOLD ∧
      s.frameCount + 1 - s.lastBeatFrame > COOLDOWN_FRAMES
  · have hspawn : (true && decide (bassAvg freq > BEAT_THRESHOLD)
        && decide (s.frameCount + 1 - s.lastBeatFrame > COOLDOWN_FRAMES)) = true := by
      simp [hcond.1, hcond.2]
    refine ⟨?_, fun _ _ => ⟨?_, ?_⟩, fun hcon => absurd hcond hcon, rfl⟩
    · rw [if_pos hcond]
      simp only [updateGame, hspawn, eq_self_iff_true, if_true, List.map_append,
        List.map_singleton, List.filter_append, List.countP_append]
      rw [if_neg (by simp : ¬(true = false)), List.countP_append,
        spawner_old_notes_countP s.notes hits newId hfresh,
        moveNote_spawn newId r hits hhit]
      have hkeep : (decide ((SPAWN_Z + SPEED : ℚ) < DESPAWN_Z) && !false) = true := by
        rw [decide_eq_true (by norm_num [SPAWN_Z, SPEED, DESPAWN_Z])]
        rfl
      simp [List.filter_cons, hkeep]
      rw [if_pos (show (SPAWN_Z + SPEED : ℚ) < DESPAWN_Z by
        norm_num [SPAWN_Z, SPEED, DESPAWN_Z])]
      simp
    · simp only [updateGame, hspawn, eq_self_iff_true, if_true]
      rw [if_neg (by simp : ¬(true = false))]
    · intro n hn hid
      simp only [updateGame, hspawn, eq_self_iff_true, if_true, List.map_append,
        List.map_singleton, List.filter_append] at hn
      rw [if_neg (by simp : ¬(true = false))] at hn
      simp only [List.mem_append] at hn
      rcases hn with hn | hn
      · exact absurd hid (spawner_old_notes_id s.notes hits newId hfresh n hn)
      · rw [moveNote_spawn newId r hits hhit] at hn
        have := List.mem_of_mem_filter hn
        simp only [List.mem_singleton] at this
        subst this
        exact ⟨rfl, hlane0, hlane3, rfl, rfl⟩
  · have hspawn : (true && decide (bassAvg freq > BEAT_THRESHOLD)
        && decide (s.frameCount + 1 - s.lastBeatFrame > COOLDOWN_FRAMES)) = false := by
      rcases Decidable.not_and_iff_or_not.mp hcond with h | h <;> simp [h]
    refine ⟨?_, fun h1 h2 => absurd ⟨h1, h2⟩ hcond, fun _ => ?_, rfl⟩
    · rw [if_neg hcond]
      simp only [updateGame, hspawn, Bool.false_eq_true, if_false]
      rw [if_neg (by simp : ¬(true = false))]
      exact spawner_old_notes_countP s.notes hits newId hfresh
    · simp only [updateGame, hspawn, Bool.false_eq_true, if_false]
      rw [if_neg (by simp : ¬(true = false))]

/-- Witness for the C7 theorem: a loud frame well past the cooldown from
a fresh spawner state spawns exactly one note with the new id. -/
theorem beat_spawner_behavior_witness :
    (updateGame ⟨100, 0, []⟩ true true [255, 255, 255, 255, 255] (1 / 2) "n" []).notes.countP
        (fun n => n.id == "n")
      = if bassAvg [255, 255, 255, 255, 255] > BEAT_THRESHOLD ∧
          100 + 1 - 0 > COOLDOWN_FRAMES then 1 else 0 :=
  (beat_spawner_behavior ⟨100, 0, []⟩ [255, 255, 255, 255, 255] (1 / 2) "n" []
    rfl (by simp) (by norm_num) (by norm_num)).1

end VRApp
